import Mathlib

/-!
Shallow embedding of `src/Pizza.cpp`, a console pizza-ordering program
built from the classic Builder / Adapter / Observer / Strategy patterns.

Console output is modelled as a `List String`, one entry per output
statement of the source.  Prices are modelled as `Int`: every price in the
program is a small integer constant (40, 50, 10, 12, 8), represented
exactly by the C++ `double`s of the source.  Console input is modelled as
a `List Int` of the integers read by `cin >>`; when the input list is
exhausted the loops stop (the C++11 extraction failure at end of input
writes 0 into the target, which ends the ingredient sub-loop of the
source the same way).
-/

namespace PizzaCpp

/-- The closed set of `Pizza` subclasses of the source: the two fixed menu
items and the builder-produced `CustomPizza` carrying its name and price. -/
inductive Pizza where
  | custom (name : String) (price : Int)
  | pepperoni
  | hawaiian
  deriving DecidableEq, Repr

/-- Method `Pizza::getName` of each concrete class. -/
def Pizza.getName : Pizza → String
  | .custom n _ => n
  | .pepperoni => "Pizza Pepperoni"
  | .hawaiian => "Pizza Hawaiana"

/-- Method `Pizza::getPrice` of each concrete class. -/
def Pizza.getPrice : Pizza → Int
  | .custom _ p => p
  | .pepperoni => 40
  | .hawaiian => 50

/-- The closed set of `Observer` subclasses: `EmailNotifier` and `AuditLogger`. -/
inductive Observer where
  | emailNotifier
  | auditLogger
  deriving DecidableEq, Repr

/-- Method `Observer::update`: each concrete observer emits one output line. -/
def Observer.update : Observer → Int → String
  | .emailNotifier, total =>
      "[Email] Enviando confirmación de pedido por Bs" ++ toString total ++ "..."
  | .auditLogger, total =>
      "[Log] Pedido registrado por Bs" ++ toString total ++ "."

/-- The simulated external service (`ExternalPaymentAPI`), a class with no
state whose one method prints a confirmation. -/
structure ExternalPaymentAPI where
  deriving DecidableEq, Repr

/-- Method `ExternalPaymentAPI::doTransaction`: the external service's own call. -/
def ExternalPaymentAPI.doTransaction (_ : ExternalPaymentAPI) (amount : Int) :
    List String :=
  ["Pago realizado mediante API externa: Bs" ++ toString amount]

/-- The closed set of `Payment` subclasses: `CashPayment`, `CardPayment`,
and `ExternalPaymentAdapter` holding its `ExternalPaymentAPI*`. -/
inductive Payment where
  | cash
  | card
  | externalAdapter (api : ExternalPaymentAPI)
  deriving DecidableEq, Repr

/-- Method `Payment::pay` of each concrete class; the adapter's body is the single
forwarding call `api->doTransaction(amount)`. -/
def Payment.pay : Payment → Int → List String
  | .cash, amount => ["Pagando Bs" ++ toString amount ++ " en efectivo."]
  | .card, amount => ["Pagando Bs" ++ toString amount ++ " con tarjeta."]
  | .externalAdapter api, amount => api.doTransaction amount

/-- Class `PizzaBuilder`: accumulator with the source's initial field values. -/
structure PizzaBuilder where
  name : String := "Pizza Personalizada"
  price : Int := 0
  deriving DecidableEq, Repr

/-- Method `PizzaBuilder::addCheese`. -/
def PizzaBuilder.addCheese (b : PizzaBuilder) : PizzaBuilder :=
  { b with price := b.price + 10 }

/-- Method `PizzaBuilder::addPepperoni`. -/
def PizzaBuilder.addPepperoni (b : PizzaBuilder) : PizzaBuilder :=
  { b with price := b.price + 12 }

/-- Method `PizzaBuilder::addPineapple`. -/
def PizzaBuilder.addPineapple (b : PizzaBuilder) : PizzaBuilder :=
  { b with price := b.price + 8 }

/-- Method `PizzaBuilder::build`: returns `new CustomPizza(name, price)`. -/
def PizzaBuilder.build (b : PizzaBuilder) : Pizza :=
  .custom b.name b.price

/-- The three ingredient add operations of the builder, for stating facts
about arbitrary sequences of adds. -/
inductive Ingredient where
  | cheese
  | pepperoni
  | pineapple
  deriving DecidableEq, Repr

/-- Dispatch one ingredient add to the corresponding builder method. -/
def PizzaBuilder.addIngredient (b : PizzaBuilder) : Ingredient → PizzaBuilder
  | .cheese => b.addCheese
  | .pepperoni => b.addPepperoni
  | .pineapple => b.addPineapple

/-- Apply a sequence of ingredient adds to a builder, in order. -/
def PizzaBuilder.addAll (b : PizzaBuilder) (adds : List Ingredient) : PizzaBuilder :=
  adds.foldl PizzaBuilder.addIngredient b

/-- The `Order` aggregate: its `vector<Pizza*> pizzas` and
`vector<Observer*> observers`. -/
structure Order where
  pizzas : List Pizza
  observers : List Observer
  deriving DecidableEq, Repr

/-- Method `Order::addPizza`: appends via push_back. -/
def Order.addPizza (o : Order) (pizza : Pizza) : Order :=
  { o with pizzas := o.pizzas ++ [pizza] }

/-- Method `Order::addObserver`: appends via push_back. -/
def Order.addObserver (o : Order) (obs : Observer) : Order :=
  { o with observers := o.observers ++ [obs] }

/-- Method `Order::notifyObservers`: the range-for over `observers`, calling
`obs->update(total)` on each in turn. -/
def Order.notifyObservers (o : Order) (total : Int) : List String :=
  o.observers.foldl (fun acc obs => acc ++ [obs.update total]) []

/-- Method `Order::listOrder`: header line, then one line per pizza. -/
def Order.listOrder (o : Order) : List String :=
  "Pizzas en el pedido:" ::
    o.pizzas.map (fun p => "- " ++ p.getName ++ " (Bs" ++ toString p.getPrice ++ ")")

/-- Method `Order::calculateTotal`: starts the total at 0 then runs `total += pizza->getPrice()`
over the range-for. -/
def Order.calculateTotal (o : Order) : Int :=
  o.pizzas.foldl (fun total p => total + p.getPrice) 0

/-- Method `Order::checkout`: computes the total, notifies the observers, prints
the total line, then calls `paymentMethod->pay(total)`.  The body mutates
no field, so the resulting order state is returned alongside the output. -/
def Order.checkout (o : Order) (paymentMethod : Payment) : Order × List String :=
  let total := o.calculateTotal
  (o, o.notifyObservers total
        ++ ["Total a pagar: Bs" ++ toString total]
        ++ paymentMethod.pay total)

/-- Method `Order::clearOrder`: deletes the pizzas and `pizzas.clear()`; the
`observers` field is untouched. -/
def Order.clearOrder (o : Order) : Order :=
  { o with pizzas := [] }

/-! ### The interactive `main` of the source -/

/-- The top-level menu printed at the head of each iteration of the outer
`do`-`while` loop, ending with the selection prompt. -/
def topMenu : List String :=
  ["=== Menu de Pizzas ===",
   "1. Pizza Pepperoni (Bs 40)",
   "2. Pizza Hawaiana (Bs 50)",
   "3. Pizza Personalizada",
   "4. Finalizar pedido",
   "Seleccione una opcion: "]

/-- The header printed on entering the custom-pizza branch (case 3). -/
def subMenuHeader : List String :=
  ["Elija ingredientes para su pizza personalizada:",
   "1. Queso (+Bs10)",
   "2. Pepperoni (+Bs12)",
   "3. Piña (+Bs8)",
   "0. Terminar"]

/-- One iteration of the ingredient `switch`: the builder after the chosen
add, and the lines it prints. -/
def ingredientStep (b : PizzaBuilder) (i : Int) : PizzaBuilder × List String :=
  if i = 1 then (b.addCheese, [])
  else if i = 2 then (b.addPepperoni, [])
  else if i = 3 then (b.addPineapple, [])
  else if i = 0 then (b, [])
  else (b, ["Opción no válida."])

/-- The inner `do { ... } while (ingrediente != 0)` loop of case 3: each
iteration prints the prompt, reads one integer and dispatches it; the loop
ends when 0 is read (also what the C++11 read failure at end of input
produces).  Returns the final builder, the printed lines, and the unread
input. -/
def buildLoop (b : PizzaBuilder) : List Int → PizzaBuilder × List String × List Int
  | [] => (b, ["Ingrediente: "], [])
  | i :: rest =>
    let s := ingredientStep b i
    if i = 0 then (s.1, "Ingrediente: " :: s.2, rest)
    else
      let r := buildLoop s.1 rest
      (r.1, ("Ingrediente: " :: s.2) ++ r.2.1, r.2.2)

theorem buildLoop_consumes (b : PizzaBuilder) (inputs : List Int) :
    (buildLoop b inputs).2.2.length ≤ inputs.length := by
  induction inputs generalizing b with
  | nil => simp [buildLoop]
  | cons i rest ih =>
    simp only [buildLoop]
    split
    · simp
    · exact le_trans (ih _) (Nat.le_succ _)

/-- The outer `do { ... } while (option != 4)` loop of `main`: each
iteration prints the top menu, reads one option and dispatches the
`switch`.  Returns the final order, the printed lines, and the unread
input left for the payment phase. -/
def orderLoop (ord : Order) : List Int → Order × List String × List Int
  | [] => (ord, topMenu, [])
  | opt :: rest =>
    if opt = 1 then
      let r := orderLoop (ord.addPizza .pepperoni) rest
      (r.1, topMenu ++ r.2.1, r.2.2)
    else if opt = 2 then
      let r := orderLoop (ord.addPizza .hawaiian) rest
      (r.1, topMenu ++ r.2.1, r.2.2)
    else if opt = 3 then
      let bl := buildLoop {} rest
      let r := orderLoop (ord.addPizza bl.1.build) bl.2.2
      (r.1, topMenu ++ subMenuHeader ++ bl.2.1 ++ r.2.1, r.2.2)
    else if opt = 4 then
      (ord, topMenu ++ ["Finalizando pedido..."], rest)
    else
      let r := orderLoop ord rest
      (r.1, topMenu ++ ["Opción no válida."] ++ r.2.1, r.2.2)
termination_by inputs => inputs.length
decreasing_by
  all_goals simp
  have h := buildLoop_consumes {} rest
  omega

/-- The payment menu printed after the ordering loop ends. -/
def paymentMenu : List String :=
  ["Seleccione metodo de pago:",
   "1. Efectivo",
   "2. Tarjeta",
   "3. API Externa (Adapter)"]

/-- The `if`/`else if` chain of `main` selecting the `Payment*` from the
read `paymentOption`, with the warning lines it prints. -/
def selectPayment (paymentOption : Int) : Payment × List String :=
  if paymentOption = 1 then (.cash, [])
  else if paymentOption = 2 then (.card, [])
  else if paymentOption = 3 then (.externalAdapter {}, [])
  else (.cash, ["Método inválido. Se usará efectivo por defecto."])

/-- The `Order` of `main` after its first two statements: it starts empty
and `EmailNotifier` then `AuditLogger` are registered. -/
def startOrder : Order :=
  (Order.addObserver { pizzas := [], observers := [] } .emailNotifier).addObserver
    .auditLogger

/-- Function `main`: starting from `startOrder`, the ordering loop runs, the order
is listed, the payment menu is printed, the payment is selected from the
next read integer (0 on exhausted input, as C++11 read failure yields),
checkout runs, and the order is cleared. -/
def mainProgram (inputs : List Int) : Order × List String :=
  let r := orderLoop startOrder inputs
  let ord := r.1
  let payInput : Int := r.2.2.headD 0
  let sel := selectPayment payInput
  let co := ord.checkout sel.1
  (co.1.clearOrder,
   r.2.1 ++ ord.listOrder ++ [""] ++ paymentMenu ++ sel.2 ++ co.2)

/-! ### Reachable order states

The order states an execution of the program can produce, starting from
an empty order: `main` registers observers, adds menu pizzas, adds pizzas
built from any sequence of ingredient adds, clears, and checks out. -/

/-- One operation of the program on an order. -/
inductive Step : Order → Order → Prop where
  | addPepperoni (o : Order) : Step o (o.addPizza .pepperoni)
  | addHawaiian (o : Order) : Step o (o.addPizza .hawaiian)
  | addCustom (o : Order) (adds : List Ingredient) :
      Step o (o.addPizza (PizzaBuilder.addAll {} adds).build)
  | addObs (o : Order) (obs : Observer) : Step o (o.addObserver obs)
  | clear (o : Order) : Step o o.clearOrder
  | doCheckout (o : Order) (p : Payment) : Step o (o.checkout p).1

/-- Order states reachable from the empty order by program operations. -/
inductive Reachable : Order → Prop where
  | init : Reachable { pizzas := [], observers := [] }
  | step {o o' : Order} : Reachable o → Step o o' → Reachable o'

/-! ### Helper lemmas -/

theorem foldl_snoc_eq_map {α β : Type} (f : α → β) (l : List α) (acc : List β) :
    l.foldl (fun a x => a ++ [f x]) acc = acc ++ l.map f := by
  induction l generalizing acc with
  | nil => simp
  | cons x xs ih => simp [ih]

theorem notifyObservers_eq_map (o : Order) (total : Int) :
    o.notifyObservers total = o.observers.map (fun obs => obs.update total) := by
  simpa using foldl_snoc_eq_map (fun obs => Observer.update obs total) o.observers []

theorem foldl_price_eq_sum (l : List Pizza) (acc : Int) :
    l.foldl (fun total p => total + p.getPrice) acc
      = acc + (l.map Pizza.getPrice).sum := by
  induction l generalizing acc with
  | nil => simp
  | cons p ps ih => simp [ih, add_assoc]

theorem calculateTotal_eq_sum (o : Order) :
    o.calculateTotal = (o.pizzas.map Pizza.getPrice).sum := by
  simpa using foldl_price_eq_sum o.pizzas 0

theorem foldl_addPizza_pizzas (ps : List Pizza) (o : Order) :
    (ps.foldl Order.addPizza o).pizzas = o.pizzas ++ ps := by
  induction ps generalizing o with
  | nil => simp
  | cons p rest ih => simp [ih, Order.addPizza]

theorem addAll_price (adds : List Ingredient) (b : PizzaBuilder) :
    (b.addAll adds).price
      = b.price + 10 * (adds.count .cheese : Int)
          + 12 * (adds.count .pepperoni : Int)
          + 8 * (adds.count .pineapple : Int) := by
  induction adds generalizing b with
  | nil => simp [PizzaBuilder.addAll]
  | cons i rest ih =>
    have h := ih (b.addIngredient i)
    cases i <;>
      simp [PizzaBuilder.addAll, PizzaBuilder.addIngredient, PizzaBuilder.addCheese,
        PizzaBuilder.addPepperoni, PizzaBuilder.addPineapple, List.count_cons] at h ⊢ <;>
      omega

theorem reachable_prices_nonneg {o : Order} (h : Reachable o) :
    ∀ p ∈ o.pizzas, 0 ≤ p.getPrice := by
  induction h with
  | init => simp
  | step _ hs ih =>
    cases hs with
    | addPepperoni =>
      intro p hp
      rcases List.mem_append.mp hp with hp | hp
      · exact ih p hp
      · simp at hp; subst hp; simp [Pizza.getPrice]
    | addHawaiian =>
      intro p hp
      rcases List.mem_append.mp hp with hp | hp
      · exact ih p hp
      · simp at hp; subst hp; simp [Pizza.getPrice]
    | addCustom adds =>
      intro p hp
      rcases List.mem_append.mp hp with hp | hp
      · exact ih p hp
      · simp at hp; subst hp
        have h := addAll_price adds {}
        have hb : ({} : PizzaBuilder).price = 0 := rfl
        rw [hb] at h
        simp [PizzaBuilder.build, Pizza.getPrice, h]
        omega
    | addObs obs => exact ih
    | clear => simp [Order.clearOrder]
    | doCheckout p => exact ih

theorem orderLoop_out_starts_with_menu (ord : Order) (l : List Int) :
    ∃ t, (orderLoop ord l).2.1 = topMenu ++ t := by
  cases l with
  | nil => exact ⟨[], by simp [orderLoop]⟩
  | cons opt rest =>
    simp only [orderLoop]
    split
    · exact ⟨_, rfl⟩
    split
    · exact ⟨_, rfl⟩
    split
    · exact ⟨_, rfl⟩
    split
    · exact ⟨_, rfl⟩
    exact ⟨_, rfl⟩

/-! ### Claim theorems -/

/-- C1: `checkout(p)` first computes the total, then emits exactly one
notification per registered observer, in registration order, each with
that same total, and only afterwards invokes `p.pay` with that same
total: its effect trace is exactly the observers' notifications (one
each, in order), then the total line, then the payment's effects. -/
theorem checkout_notifies_in_order_then_pays (o : Order) (p : Payment) :
    (o.checkout p).2
      = o.observers.map (fun obs => obs.update o.calculateTotal)
          ++ ["Total a pagar: Bs" ++ toString o.calculateTotal]
          ++ p.pay o.calculateTotal := by
  simp [Order.checkout, notifyObservers_eq_map]

/-- C2: `calculateTotal` returns the sum of the prices of the items
currently in the order (recomputed from the item list, a pure function of
it), the menu prices are Pepperoni = 40 and Hawaiian = 50, and adding any
sequence of pizzas raises the total by exactly the sum of their prices. -/
theorem total_is_sum_of_prices :
    (∀ o : Order, o.calculateTotal = (o.pizzas.map Pizza.getPrice).sum)
    ∧ Pizza.pepperoni.getPrice = 40
    ∧ Pizza.hawaiian.getPrice = 50
    ∧ ∀ (o : Order) (ps : List Pizza),
        (ps.foldl Order.addPizza o).calculateTotal
          = o.calculateTotal + (ps.map Pizza.getPrice).sum := by
  refine ⟨calculateTotal_eq_sum, rfl, rfl, fun o ps => ?_⟩
  have h := foldl_addPizza_pizzas ps o
  simp [calculateTotal_eq_sum, h]

/-- C3: a fresh builder starts at price 0, and after any sequence of adds
with `c` cheese, `p` pepperoni and `a` pineapple additions, `build()`
returns a pizza of price `10*c + 12*p + 8*a`; in particular one of each
gives 30, and two cheese adds contribute 20. -/
theorem builder_price_linear (adds : List Ingredient) :
    ({} : PizzaBuilder).price = 0
    ∧ (PizzaBuilder.addAll {} adds).build.getPrice
        = 10 * (adds.count .cheese : Int) + 12 * (adds.count .pepperoni : Int)
            + 8 * (adds.count .pineapple : Int)
    ∧ (PizzaBuilder.addAll {} [.cheese, .pepperoni, .pineapple]).build.getPrice = 30
    ∧ (({} : PizzaBuilder).addCheese.addCheese).price = 20 := by
  refine ⟨rfl, ?_, by decide, by decide⟩
  have h := addAll_price adds {}
  have hb : ({} : PizzaBuilder).price = 0 := rfl
  rw [hb] at h
  simpa [PizzaBuilder.build, Pizza.getPrice] using h

/-- C4: `clearOrder` empties the item sequence (so `calculateTotal`
returns 0 afterwards) and leaves the observer sequence unchanged. -/
theorem clearOrder_empties_items_keeps_observers (o : Order) :
    o.clearOrder.pizzas = []
    ∧ o.clearOrder.observers = o.observers
    ∧ o.clearOrder.calculateTotal = 0 :=
  ⟨rfl, rfl, rfl⟩

/-- C5: on a top-level menu input other than 1–4, the loop iteration
prints the menu then the invalid-option message, leaves the order state
unchanged (the rest of the run proceeds from the same order), and
re-displays the same menu immediately after the message; the loop neither
exits nor fails. -/
theorem invalid_top_menu_input_reprompts (ord : Order) (opt : Int)
    (rest : List Int) (h : opt ∉ ([1, 2, 3, 4] : List Int)) :
    orderLoop ord (opt :: rest)
        = ((orderLoop ord rest).1,
           topMenu ++ ["Opción no válida."] ++ (orderLoop ord rest).2.1,
           (orderLoop ord rest).2.2)
    ∧ ∃ t, (orderLoop ord (opt :: rest)).2.1
        = topMenu ++ ["Opción no válida."] ++ topMenu ++ t := by
  simp only [List.mem_cons, List.not_mem_nil, or_false, not_or] at h
  obtain ⟨h1, h2, h3, h4⟩ := h
  have heq : orderLoop ord (opt :: rest)
      = ((orderLoop ord rest).1,
         topMenu ++ ["Opción no válida."] ++ (orderLoop ord rest).2.1,
         (orderLoop ord rest).2.2) := by
    simp only [orderLoop]
    rw [if_neg h1, if_neg h2, if_neg h3, if_neg h4]
  obtain ⟨t, ht⟩ := orderLoop_out_starts_with_menu ord rest
  refine ⟨heq, t, ?_⟩
  rw [heq]
  simp [ht]

/-- Witness for C5 at the concrete invalid input 9 with an empty order. -/
theorem invalid_top_menu_input_reprompts_witness :
    (9 : Int) ∉ ([1, 2, 3, 4] : List Int)
    ∧ (orderLoop { pizzas := [], observers := [] } [9]
          = ((orderLoop { pizzas := [], observers := [] } []).1,
             topMenu ++ ["Opción no válida."]
               ++ (orderLoop { pizzas := [], observers := [] } []).2.1,
             (orderLoop { pizzas := [], observers := [] } []).2.2)
        ∧ ∃ t, (orderLoop { pizzas := [], observers := [] } [9]).2.1
            = topMenu ++ ["Opción no válida."] ++ topMenu ++ t) :=
  ⟨by decide, invalid_top_menu_input_reprompts _ 9 [] (by decide)⟩

/-- C6 counterexample: in the run with inputs `[1, 2, 4, 1]` (pepperoni,
Hawaiian, finish, pay cash) the order holds 2 items, yet the output
between "Finalizando pedido..." and the payment menu is exactly the
itemized listing, none of whose lines contains the digit 2: the item
count is never printed, contrary to the claim. -/
theorem finish_prints_no_item_count_cex :
    (mainProgram [1, 2, 4, 1]).2
      = topMenu ++ topMenu ++ topMenu ++ ["Finalizando pedido..."]
        ++ ["Pizzas en el pedido:", "- Pizza Pepperoni (Bs40)",
            "- Pizza Hawaiana (Bs50)"]
        ++ [""] ++ paymentMenu
        ++ ["[Email] Enviando confirmación de pedido por Bs90...",
            "[Log] Pedido registrado por Bs90.",
            "Total a pagar: Bs90",
            "Pagando Bs90 en efectivo."]
    ∧ (mainProgram [1, 2, 4, 1]).1.observers.length = 2
    ∧ ∀ l ∈ ["Pizzas en el pedido:", "- Pizza Pepperoni (Bs40)",
             "- Pizza Hawaiana (Bs50)"], Char.ofNat 50 ∉ l.data := by
  have hloop : orderLoop startOrder [1, 2, 4, 1]
      = ({ pizzas := [.pepperoni, .hawaiian],
           observers := [.emailNotifier, .auditLogger] },
         topMenu ++ topMenu ++ topMenu ++ ["Finalizando pedido..."], [1]) := by
    simp [orderLoop, startOrder, Order.addObserver, Order.addPizza]
  refine ⟨?_, ?_, by decide⟩
  · simp [mainProgram, hloop, selectPayment, Order.checkout, Order.calculateTotal,
      Order.listOrder, Order.notifyObservers, Observer.update, Pizza.getName,
      Pizza.getPrice, Payment.pay]
    decide
  · simp [mainProgram, hloop, Order.clearOrder, Order.checkout]

/-- C6 amended: after the user finishes the order, the program prints the
itemized list of current pizzas — a header line followed by one line per
pizza with its name and price, and nothing else (in particular no item
count) — before showing the payment-method menu. -/
theorem finish_prints_itemized_list (inputs : List Int) :
    (mainProgram inputs).2
      = (orderLoop startOrder inputs).2.1
        ++ (orderLoop startOrder inputs).1.listOrder
        ++ [""] ++ paymentMenu
        ++ (selectPayment ((orderLoop startOrder inputs).2.2.headD 0)).2
        ++ ((orderLoop startOrder inputs).1.checkout
              (selectPayment ((orderLoop startOrder inputs).2.2.headD 0)).1).2
    ∧ ∀ o : Order, o.listOrder
        = "Pizzas en el pedido:"
            :: o.pizzas.map
                (fun p => "- " ++ p.getName ++ " (Bs" ++ toString p.getPrice ++ ")") :=
  ⟨rfl, fun _ => rfl⟩

/-- C7: on a payment-menu input other than 1, 2 or 3, the selection prints
the warning message and yields the cash strategy, so checkout proceeds
with cash as the default. -/
theorem invalid_payment_input_defaults_to_cash (i : Int)
    (h : i ∉ ([1, 2, 3] : List Int)) :
    selectPayment i
      = (Payment.cash, ["Método inválido. Se usará efectivo por defecto."]) := by
  simp only [List.mem_cons, List.not_mem_nil, or_false, not_or] at h
  obtain ⟨h1, h2, h3⟩ := h
  simp [selectPayment, h1, h2, h3]

/-- Witness for C7 at the concrete invalid input 9. -/
theorem invalid_payment_input_defaults_to_cash_witness :
    (9 : Int) ∉ ([1, 2, 3] : List Int)
    ∧ selectPayment 9
        = (Payment.cash, ["Método inválido. Se usará efectivo por defecto."]) :=
  ⟨by decide, invalid_payment_input_defaults_to_cash 9 (by decide)⟩

/-- C8: on every order state reachable by the program's operations
(adding menu pizzas, adding built custom pizzas, registering observers,
clearing, checking out), `calculateTotal` is non-negative. -/
theorem reachable_total_nonneg {o : Order} (h : Reachable o) :
    0 ≤ o.calculateTotal := by
  rw [calculateTotal_eq_sum]
  refine List.sum_nonneg ?_
  intro x hx
  obtain ⟨p, hp, rfl⟩ := List.mem_map.mp hx
  exact reachable_prices_nonneg h p hp

/-- Witness for C8 at the concrete reachable state holding one pepperoni
pizza. -/
theorem reachable_total_nonneg_witness :
    Reachable { pizzas := [Pizza.pepperoni], observers := [] }
    ∧ 0 ≤ Order.calculateTotal { pizzas := [Pizza.pepperoni], observers := [] } :=
  ⟨Reachable.step Reachable.init (Step.addPepperoni _),
   reachable_total_nonneg (Reachable.step Reachable.init (Step.addPepperoni _))⟩

/-- C9: the adapter's `pay(a)` is exactly the single forwarding call
`api->doTransaction(a)` with the same amount: its effect trace equals
calling the external service directly, and that trace is one transaction
effect (no retries, no added logic). -/
theorem adapter_pay_forwards_once (api : ExternalPaymentAPI) (amount : Int) :
    (Payment.externalAdapter api).pay amount = api.doTransaction amount
    ∧ (api.doTransaction amount).length = 1 :=
  ⟨rfl, rfl⟩

/-- C10: `checkout` leaves the item and observer sequences unchanged, so a
second checkout with any payment method right after produces the same
notification and payment trace as a first checkout with that method. -/
theorem checkout_leaves_order_unchanged (o : Order) (p q : Payment) :
    (o.checkout p).1.pizzas = o.pizzas
    ∧ (o.checkout p).1.observers = o.observers
    ∧ ((o.checkout p).1.checkout q).2 = (o.checkout q).2 :=
  ⟨rfl, rfl, rfl⟩

end PizzaCpp
